import Mathlib

/-!
Verification of the feed-normalization and region-expansion pipeline of the
weather dashboard in db_app.py.

The Python program is shallowly embedded: parsed JSON documents become the
inductive type JSON, the dynamic behaviour of the Python operations used by
the pipeline (dict.get, len, indexing, int conversion, truthiness, iteration)
is modelled by total Lean functions returning Except Unit to represent a
raised exception, and the SQLite persistence collaborator is modelled as a
list of rows with replace-on-conflict insertion and an ORDER BY read-back.
-/

/-- A parsed JSON document as handed to the pipeline by response.json().
Numbers are modelled as integers (the feed carries integer temperatures);
objects keep their key insertion order, matching Python dict iteration. -/
inductive JSON where
  | null : JSON
  | bool (b : Bool) : JSON
  | num (n : Int) : JSON
  | str (s : String) : JSON
  | arr (l : List JSON) : JSON
  | obj (kvs : List (String × JSON)) : JSON
deriving Repr

/-- Python truthiness of a JSON value: None, False, 0, empty string, empty
list and empty dict are falsy. Used for the `if not locations` and
`if not weather_data` tests in fetch_and_save_weather. -/
def pyFalsy : JSON → Bool
  | .null => true
  | .bool b => !b
  | .num n => n == 0
  | .str s => s == ""
  | .arr l => l.isEmpty
  | .obj kvs => kvs.isEmpty

/-- Python `v.get(key, dflt)`: defined only on dicts, where a present key
returns its value (even if that value is None) and an absent key returns the
default; on any non-dict receiver the attribute access raises. -/
def pyGetD (v : JSON) (key : String) (dflt : JSON) : Except Unit JSON :=
  match v with
  | .obj kvs => .ok ((kvs.lookup key).getD dflt)
  | _ => .error ()

/-- Python `len(v)`: lists, dicts and strings are sized; anything else
raises TypeError. -/
def pyLen : JSON → Except Unit Nat
  | .arr l => .ok l.length
  | .obj kvs => .ok kvs.length
  | .str s => .ok s.length
  | _ => .error ()

/-- Python `v[i].get(key, dflt)` for a natural index i, as used on the daily
series: indexing a list yields its element, which must again be a dict for
the .get call; indexing a dict by an integer raises KeyError (the feed only
has string keys) and indexing a string yields a character without a .get
attribute, so every non-list receiver raises. -/
def pyIndexGetD (v : JSON) (i : Nat) (key : String) (dflt : JSON) : Except Unit JSON :=
  match v with
  | .arr l =>
    match l[i]? with
    | some e => pyGetD e key dflt
    | none => .error ()
  | _ => .error ()

/-- Decimal digit accumulation for the string form of Python `int(...)`:
consumes the remaining characters, failing on the first non-digit. -/
def decDigits : List Char → Nat → Option Nat
  | [], acc => some acc
  | c :: rest, acc =>
    if c.isDigit then decDigits rest (10 * acc + (c.toNat - 48)) else none

/-- Python `int(s)` on a string: surrounding whitespace is ignored, then an
optional sign followed by at least one decimal digit; anything else raises
ValueError. -/
def pyIntOfString (s : String) : Option Int :=
  match (((s.toList.dropWhile Char.isWhitespace).reverse.dropWhile Char.isWhitespace).reverse) with
  | [] => none
  | '-' :: rest =>
    if rest.isEmpty then none else (decDigits rest 0).map (fun n => -(n : Int))
  | '+' :: rest =>
    if rest.isEmpty then none else (decDigits rest 0).map (fun n => (n : Int))
  | cs => (decDigits cs 0).map (fun n => (n : Int))

/-- Python `int(v)`: integers pass through, booleans become 0 or 1, strings
are parsed as optionally signed decimal integers, and everything else
(None, lists, dicts, non-numeric strings) raises. -/
def pyInt : JSON → Except Unit Int
  | .num n => .ok n
  | .bool b => .ok (if b then 1 else 0)
  | .str s =>
    match pyIntOfString s with
    | some n => .ok n
    | none => .error ()
  | _ => .error ()

/-- Python `for x in v`: lists iterate their elements, dicts their keys,
strings their characters (as one-character strings); other values raise
TypeError. -/
def pyIter : JSON → Except Unit (List JSON)
  | .arr l => .ok l
  | .obj kvs => .ok (kvs.map (fun kv => .str kv.fst))
  | .str s => .ok (s.toList.map (fun c => .str (String.mk [c])))
  | _ => .error ()

mutual
/-- The helper find_key of db_app.py: recursive search for a JSON key.
A list is searched element by element; a dict first checks direct key
membership (returning the stored value, which is None for a null binding)
and otherwise recurses over its values in iteration order; leaves yield
None. A child result of None (Lean none) makes the search continue with
the next sibling, exactly as `if result is not None` does in the source. -/
def find_key (node : JSON) (key : String) : Option JSON :=
  match node with
  | .arr l => find_key_list l key
  | .obj kvs =>
    match kvs.lookup key with
    | some v => match v with | .null => none | v => some v
    | none => find_key_vals kvs key
  | _ => none

/-- The list loop of find_key: `for i in node: ... if result is not None`. -/
def find_key_list (l : List JSON) (key : String) : Option JSON :=
  match l with
  | [] => none
  | x :: xs =>
    match find_key x key with
    | some v => some v
    | none => find_key_list xs key

/-- The dict-values loop of find_key: `for k, v in node.items(): ...`. -/
def find_key_vals (kvs : List (String × JSON)) (key : String) : Option JSON :=
  match kvs with
  | [] => none
  | (_, v) :: rest =>
    match find_key v key with
    | some r => some r
    | none => find_key_vals rest key
end

/-- One flattened forecast row as built inside fetch_and_save_weather and
stored by save_to_db. Field names follow the forecasts table columns; the
dict keys in the source are 地區, 預報日期, 最低溫, 最高溫 and 天氣概況.
The two temperatures are always Python ints (results of int conversion);
the other three fields carry whatever JSON value the feed supplied. -/
structure Record where
  location : JSON
  forecast_date : JSON
  min_temp : Int
  max_temp : Int
  weather_desc : JSON
deriving Repr

/-- One iteration of the day loop of fetch_and_save_weather: builds the
record dict for day index i, evaluating the five entries in source order.
Missing dataDate and weather keys default to the string N/A, a missing
temperature key defaults to the integer 0 before int conversion. -/
def buildRecord (name maxL minL wxL : JSON) (i : Nat) : Except Unit Record :=
  match pyIndexGetD maxL i "dataDate" (.str "N/A") with
  | .error e => .error e
  | .ok d =>
  match pyIndexGetD minL i "temperature" (.num 0) with
  | .error e => .error e
  | .ok mnv =>
  match pyInt mnv with
  | .error e => .error e
  | .ok mn =>
  match pyIndexGetD maxL i "temperature" (.num 0) with
  | .error e => .error e
  | .ok mxv =>
  match pyInt mxv with
  | .error e => .error e
  | .ok mx =>
  match pyIndexGetD wxL i "weather" (.str "N/A") with
  | .error e => .error e
  | .ok w => .ok ⟨name, d, mn, mx, w⟩

/-- The day loop `for i in range(days_count)` of fetch_and_save_weather,
started at index i with count iterations remaining; the first raised
exception aborts the whole loop. -/
def buildFrom (name maxL minL wxL : JSON) (i : Nat) : Nat → Except Unit (List Record)
  | 0 => .ok []
  | count + 1 =>
    match buildRecord name maxL minL wxL i with
    | .error e => .error e
    | .ok r =>
      match buildFrom name maxL minL wxL (i + 1) count with
      | .error e => .error e
      | .ok rest => .ok (r :: rest)

/-- The per-location field reads of fetch_and_save_weather, in source
order: the display name (default Unknown), the weatherElements dict with
fallback to the weatherElement spelling when falsy, and the three daily
series (each defaulting to an empty dict and then an empty list). -/
def seriesOf (loc : JSON) : Except Unit (JSON × JSON × JSON × JSON) :=
  match pyGetD loc "locationName" (.str "Unknown") with
  | .error e => .error e
  | .ok name =>
  match pyGetD loc "weatherElements" (.obj []) with
  | .error e => .error e
  | .ok we0 =>
  match (if pyFalsy we0 then pyGetD loc "weatherElement" (.obj []) else .ok we0) with
  | .error e => .error e
  | .ok wd =>
  match pyGetD wd "MaxT" (.obj []) with
  | .error e => .error e
  | .ok maxO =>
  match pyGetD maxO "daily" (.arr []) with
  | .error e => .error e
  | .ok maxL =>
  match pyGetD wd "MinT" (.obj []) with
  | .error e => .error e
  | .ok minO =>
  match pyGetD minO "daily" (.arr []) with
  | .error e => .error e
  | .ok minL =>
  match pyGetD wd "Wx" (.obj []) with
  | .error e => .error e
  | .ok wxO =>
  match pyGetD wxO "daily" (.arr []) with
  | .error e => .error e
  | .ok wxL => .ok (name, maxL, minL, wxL)

/-- Processing of one entry of the location list: read the name and the
three series, take the minimum of the three series lengths as the number
of emitted days, and run the day loop. -/
def process_loc (loc : JSON) : Except Unit (List Record) :=
  match seriesOf loc with
  | .error e => .error e
  | .ok (name, maxL, minL, wxL) =>
  match pyLen maxL with
  | .error e => .error e
  | .ok nmax =>
  match pyLen minL with
  | .error e => .error e
  | .ok nmin =>
  match pyLen wxL with
  | .error e => .error e
  | .ok nwx => buildFrom name maxL minL wxL 0 (min nmax (min nmin nwx))

/-- The outer `for loc in locations` loop: records of the successive
locations are appended in order; the first raised exception aborts the
whole loop (and with it every record collected so far). -/
def process_locs : List JSON → Except Unit (List Record)
  | [] => .ok []
  | l :: ls =>
    match process_loc l with
    | .error e => .error e
    | .ok rs =>
      match process_locs ls with
      | .error e => .error e
      | .ok rest => .ok (rs ++ rest)

/-- The record-extraction stage of fetch_and_save_weather (the operation
extract_records of the specification): locate the location list anywhere in
the document, return an empty result when `if not locations` fires, and
otherwise iterate the located value. A returned error stands for a raised
exception, which the enclosing try block of the source converts into an
empty result. -/
def extract_records (data : JSON) : Except Unit (List Record) :=
  match find_key data "location" with
  | none => .ok []
  | some locs =>
    if pyFalsy locs then .ok []
    else
      match pyIter locs with
      | .error e => .error e
      | .ok ls => process_locs ls

/-- The space removal `desc.replace(" ", "")` of get_weather_icon, as the
character list of the cleaned string. The markers tested afterwards are
single characters, so substring containment is character membership in
this list. -/
def stripSpaces (s : String) : List Char :=
  s.toList.filter (fun ch => ch ≠ ' ')

/-- The helper get_weather_icon of db_app.py: non-string input yields the
question-mark symbol; otherwise spaces are removed and the substring tests
run in source order, first match winning. -/
def get_weather_icon (desc : JSON) : String :=
  match desc with
  | .str s =>
    let c := stripSpaces s
    if c.contains '雷' then "⛈️"
    else if c.contains '雨' then "🌧️"
    else if c.contains '雪' then "❄️"
    else if c.contains '晴' && (c.contains '雲' || c.contains '陰') then "⛅"
    else if c.contains '晴' then "☀️"
    else if c.contains '陰' then "☁️"
    else if c.contains '雲' then "🌥️"
    else "🌡️"
  | _ => "❓"

/-- The hot colour of get_temp_color (red, the HOT class of the spec). -/
def hotColor : List Nat := [255, 87, 51]

/-- The cold colour of get_temp_color (blue, the COLD class of the spec). -/
def coldColor : List Nat := [51, 193, 255]

/-- The mild colour of get_temp_color (green, the MILD class of the spec). -/
def mildColor : List Nat := [117, 255, 51]

/-- The helper get_temp_color of db_app.py (the operation
classify_temperature of the specification). -/
def get_temp_color (max_temp : Int) : List Nat :=
  if max_temp ≥ 30 then hotColor
  else if max_temp ≤ 20 then coldColor
  else mildColor

/-- One entry of the CITY_MAPPING table of db_app.py: a locality (city),
the coarse forecast region carrying its data, and its point coordinates.
The coordinates are exact decimal literals, modelled as rationals. -/
structure CityMapping where
  city : String
  region : String
  lat : Rat
  lon : Rat
deriving Repr

/-- The static CITY_MAPPING table of db_app.py, in source order. -/
def CITY_MAPPING : List CityMapping := [
  ⟨"基隆市", "北部地區", 25.1276, 121.7392⟩,
  ⟨"臺北市", "北部地區", 25.0330, 121.5654⟩,
  ⟨"新北市", "北部地區", 25.0172, 121.4625⟩,
  ⟨"桃園市", "北部地區", 24.9936, 121.3010⟩,
  ⟨"新竹市", "北部地區", 24.8138, 120.9675⟩,
  ⟨"新竹縣", "北部地區", 24.8396, 121.0107⟩,
  ⟨"苗栗縣", "北部地區", 24.5602, 120.8214⟩,
  ⟨"臺中市", "中部地區", 24.1477, 120.6736⟩,
  ⟨"彰化縣", "中部地區", 24.0518, 120.5161⟩,
  ⟨"南投縣", "中部地區", 23.9610, 120.9719⟩,
  ⟨"雲林縣", "中部地區", 23.7092, 120.4313⟩,
  ⟨"嘉義市", "中部地區", 23.4801, 120.4491⟩,
  ⟨"嘉義縣", "中部地區", 23.4518, 120.2555⟩,
  ⟨"臺南市", "南部地區", 22.9997, 120.2270⟩,
  ⟨"高雄市", "南部地區", 22.6273, 120.3014⟩,
  ⟨"屏東縣", "南部地區", 22.5519, 120.5487⟩,
  ⟨"宜蘭縣", "東北部地區", 24.7021, 121.7377⟩,
  ⟨"花蓮縣", "東部地區", 23.9872, 121.6011⟩,
  ⟨"臺東縣", "東南部地區", 22.7613, 121.1445⟩,
  ⟨"澎湖縣", "澎湖地區", 23.5711, 119.5793⟩,
  ⟨"金門縣", "金門地區", 24.4404, 118.3225⟩,
  ⟨"連江縣", "馬祖地區", 26.1505, 119.9590⟩]

/-- The pandas filter `df_day[df_day[地區] == mapping[region]]` applied to
one row: a cell compares equal to the region string exactly when it holds
that string (comparison of a non-string cell with a string is false). -/
def matchesRegion (m : CityMapping) (r : Record) : Bool :=
  match r.location with
  | .str s => s == m.region
  | _ => false

/-- One row of the map layer: the matched forecast row (row_data) together
with the fields the expansion loop overwrites or adds, namely the display
name 顯示名稱, the locality coordinates, and the colour. -/
structure MapRow where
  base : Record
  display_name : String
  lat : Rat
  lon : Rat
  color : List Nat
deriving Repr

/-- The map-expansion loop of db_app.py (the operation expand_to_localities
of the specification): for each table entry in order, take the first row of
df_day whose 地區 equals the region of the entry; if none exists the entry
contributes nothing, otherwise one map row is appended combining that
forecast row with the city name, its coordinates and the colour derived
from the maximum temperature of the match. -/
def expand_to_localities (df_day : List Record) (table : List CityMapping) : List MapRow :=
  table.filterMap (fun m =>
    match df_day.find? (matchesRegion m) with
    | some r => some ⟨r, m.city, m.lat, m.lon, get_temp_color r.max_temp⟩
    | none => none)

/-- SQLite storage class of a bound Python value: NULL sorts before
numbers, numbers before text; lists and dicts cannot be bound at all and
are given a sink class. Booleans are bound as the integers 0 and 1. -/
def JSON.sqlClass : JSON → Nat
  | .null => 0
  | .bool _ => 1
  | .num _ => 1
  | .str _ => 2
  | _ => 3

/-- Numeric value of a bound Python value of the numeric storage class. -/
def JSON.sqlNum : JSON → Int
  | .bool b => if b then 1 else 0
  | .num n => n
  | _ => 0

/-- Text value of a bound Python value of the text storage class. -/
def JSON.sqlStr : JSON → String
  | .str s => s
  | _ => ""

/-- SQLite equality of two stored values, as used by the UNIQUE constraint
of the forecasts table: two numeric values are equal when their numbers
agree, two text values when their strings agree; NULL is equal to nothing
(including itself), and unbindable values to nothing. -/
def sqlValEq (a b : JSON) : Bool :=
  if a.sqlClass == 1 && b.sqlClass == 1 then a.sqlNum == b.sqlNum
  else if a.sqlClass == 2 && b.sqlClass == 2 then a.sqlStr == b.sqlStr
  else false

/-- Conflict of two rows under UNIQUE(location, forecast_date) of the
forecasts table created by init_db. -/
def rowConflict (a b : Record) : Bool :=
  sqlValEq a.location b.location && sqlValEq a.forecast_date b.forecast_date

/-- One INSERT of save_to_db under ON CONFLICT REPLACE: every stored row
conflicting with the new row is deleted and the new row is appended. -/
def insertReplace (store : List Record) (r : Record) : List Record :=
  store.filter (fun s => !(rowConflict s r)) ++ [r]

/-- The function save_to_db of db_app.py: each record of the list is
inserted in order into the forecasts table (the early return on an empty
list leaves the store unchanged, as does the empty fold). -/
def save_to_db (store : List Record) (data_list : List Record) : List Record :=
  data_list.foldl insertReplace store

/-- SQLite ordering of two stored values: by storage class first
(NULL, then numbers, then text), then by numeric or text value. -/
def jsonLe (a b : JSON) : Bool :=
  if a.sqlClass < b.sqlClass then true
  else if b.sqlClass < a.sqlClass then false
  else if a.sqlClass == 1 then a.sqlNum ≤ b.sqlNum
  else if a.sqlClass == 2 then decide (a.sqlStr ≤ b.sqlStr)
  else true

/-- Lexicographic combination of two Boolean preorders, used to model a
two-column ORDER BY: when the first components are equivalent the second
decides, otherwise the first does. -/
def lexCombine {α : Type} (le1 le2 : α → α → Bool) (a b : α) : Bool :=
  if le1 a b && le1 b a then le2 a b else le1 a b

/-- Row ordering of `ORDER BY location, forecast_date` in get_db_data. -/
def rowLe : Record → Record → Bool :=
  lexCombine (fun a b => jsonLe a.location b.location)
    (fun a b => jsonLe a.forecast_date b.forecast_date)

/-- The function get_db_data of db_app.py: all stored rows, ordered by
location and then forecast date (storage-assigned id and timestamp columns
are not modelled). -/
def get_db_data (store : List Record) : List Record :=
  store.mergeSort rowLe

/-- Persisting a record sequence into an empty store and reading it back,
the round trip of the specification. -/
def round_trip (input : List Record) : List Record :=
  get_db_data (save_to_db [] input)

/-- One refresh cycle of fetch_and_save_weather against a given store: the
fetch collaborator either delivers a parsed document or signals a
transport or parse failure (requests.get, raise_for_status or
response.json raising). The result is the returned record list, the store
after the cycle, and whether st.error reported a failure. Extraction and
saving happen inside the try block, so any exception there is also caught,
reported, and turned into an empty result before save_to_db is reached. -/
def fetch_and_save_weather (fetched : Except Unit JSON) (store : List Record) :
    List Record × List Record × Bool :=
  match fetched with
  | .error _ => ([], store, true)
  | .ok data =>
    match extract_records data with
    | .error _ => ([], store, true)
    | .ok recs => (recs, save_to_db store recs, false)

mutual
/-- Modelled from the words of the specification for comparison with
find_key (claim C3): depth-first search returning the value of the first
matching key encountered, where sequences are searched element by element,
and mappings are searched for direct key membership first and then
recursively over all values in iteration order. Unlike find_key it reports
the first match even when the stored value is null. -/
def spec_first_match (node : JSON) (key : String) : Option JSON :=
  match node with
  | .arr l => spec_first_match_list l key
  | .obj kvs =>
    match kvs.lookup key with
    | some v => some v
    | none => spec_first_match_vals kvs key
  | _ => none

/-- Element-by-element search of a sequence for spec_first_match. -/
def spec_first_match_list (l : List JSON) (key : String) : Option JSON :=
  match l with
  | [] => none
  | x :: xs =>
    match spec_first_match x key with
    | some v => some v
    | none => spec_first_match_list xs key

/-- Search over the values of a mapping for spec_first_match. -/
def spec_first_match_vals (kvs : List (String × JSON)) (key : String) : Option JSON :=
  match kvs with
  | [] => none
  | (_, v) :: rest =>
    match spec_first_match v key with
    | some r => some r
    | none => spec_first_match_vals rest key
end

/-- True when a JSON value is null. -/
def JSON.isNull : JSON → Bool
  | .null => true
  | _ => false

mutual
/-- Every binding of the given key anywhere in the document has the value
null (used to state claim C10). -/
def keyAllNull (node : JSON) (key : String) : Bool :=
  match node with
  | .arr l => keyAllNullList l key
  | .obj kvs => keyAllNullObj kvs key
  | _ => true

/-- keyAllNull over the elements of a sequence. -/
def keyAllNullList (l : List JSON) (key : String) : Bool :=
  match l with
  | [] => true
  | x :: xs => keyAllNull x key && keyAllNullList xs key

/-- keyAllNull over the entries of a mapping: a binding of the key must be
null, and every value is checked recursively. -/
def keyAllNullObj (kvs : List (String × JSON)) (key : String) : Bool :=
  match kvs with
  | [] => true
  | (k, v) :: rest =>
    ((k != key) || v.isNull) && keyAllNull v key && keyAllNullObj rest key
end

/-- The record produced for a day entry all of whose source fields are
missing: name, date and condition fall back to their sentinel strings and
both temperatures to 0. -/
def defaultRecord : Record :=
  ⟨.str "Unknown", .str "N/A", 0, 0, .str "N/A"⟩

/-- A location entry whose three daily series have the given lengths and
whose day entries are empty dicts, so that every per-day field takes its
default. The entry has no locationName key. -/
def daysLoc (a b c : Nat) : JSON :=
  .obj [("weatherElements", .obj [
    ("MaxT", .obj [("daily", .arr (List.replicate a (.obj [])))]),
    ("MinT", .obj [("daily", .arr (List.replicate b (.obj [])))]),
    ("Wx", .obj [("daily", .arr (List.replicate c (.obj [])))])])]

/-- A location entry carrying one forecast day with a present but
non-numeric minimum-temperature value. -/
def badTempLoc : JSON :=
  .obj [("locationName", .str "北部地區"), ("weatherElements", .obj [
    ("MaxT", .obj [("daily", .arr [.obj [("dataDate", .str "2026-10-12"), ("temperature", .num 25)]])]),
    ("MinT", .obj [("daily", .arr [.obj [("dataDate", .str "2026-10-12"), ("temperature", .str "abc")]])]),
    ("Wx", .obj [("daily", .arr [.obj [("weather", .str "晴")]])])])]

/-- A document whose single location is badTempLoc. -/
def badTempDoc : JSON :=
  .obj [("location", .arr [badTempLoc])]

/-- A sample record sequence for exercising the persistence round trip:
two distinct keys, with the key of the first row persisted twice (the
third row must replace the first). -/
def sampleRows : List Record :=
  [⟨.str "北部地區", .str "2026-10-12", 10, 20, .str "晴"⟩,
   ⟨.str "中部地區", .str "2026-10-12", 12, 22, .str "陰"⟩,
   ⟨.str "北部地區", .str "2026-10-12", 11, 31, .str "雨"⟩]

theorem buildFrom_length (name a b c : JSON) :
    ∀ (count i : Nat) (l : List Record), buildFrom name a b c i count = .ok l → l.length = count := by
  intro count
  induction count with
  | zero =>
    intro i l h
    simp only [buildFrom] at h
    simp only [Except.ok.injEq] at h
    simp [← h]
  | succ n ih =>
    intro i l h
    simp only [buildFrom] at h
    cases hr : buildRecord name a b c i with
    | error e => simp [hr] at h
    | ok r =>
      simp only [hr] at h
      cases hb : buildFrom name a b c (i + 1) n with
      | error e => simp [hb] at h
      | ok rest =>
        simp only [hb, Except.ok.injEq] at h
        subst h
        simp [ih (i + 1) rest hb]

/-- Claim C4: whenever the extraction of one location entry succeeds, the
number of records emitted for it is exactly the minimum of the lengths of
the max-temperature, min-temperature and condition series. -/
theorem claim_C4 : ∀ (loc : JSON) (recs : List Record), process_loc loc = .ok recs →
    ∃ name maxL minL wxL nmax nmin nwx,
      seriesOf loc = .ok (name, maxL, minL, wxL) ∧
      pyLen maxL = .ok nmax ∧ pyLen minL = .ok nmin ∧ pyLen wxL = .ok nwx ∧
      recs.length = min nmax (min nmin nwx) := by
  intro loc recs h
  simp only [process_loc] at h
  cases hs : seriesOf loc with
  | error e => simp [hs] at h
  | ok q =>
    obtain ⟨name, maxL, minL, wxL⟩ := q
    simp only [hs] at h
    cases h1 : pyLen maxL with
    | error e => simp [h1] at h
    | ok nmax =>
      simp only [h1] at h
      cases h2 : pyLen minL with
      | error e => simp [h2] at h
      | ok nmin =>
        simp only [h2] at h
        cases h3 : pyLen wxL with
        | error e => simp [h3] at h
        | ok nwx =>
          simp only [h3] at h
          exact ⟨name, maxL, minL, wxL, nmax, nmin, nwx, rfl, h1, h2, h3,
            buildFrom_length name maxL minL wxL (min nmax (min nmin nwx)) 0 recs h⟩

theorem claim_C4_witness :
    (∃ name maxL minL wxL nmax nmin nwx,
      seriesOf (daysLoc 5 3 4) = .ok (name, maxL, minL, wxL) ∧
      pyLen maxL = .ok nmax ∧ pyLen minL = .ok nmin ∧ pyLen wxL = .ok nwx ∧
      (List.replicate 3 defaultRecord).length = min nmax (min nmin nwx)) ∧
    (List.replicate 3 defaultRecord).length = 3 :=
  ⟨claim_C4 (daysLoc 5 3 4) (List.replicate 3 defaultRecord) (by rfl), by rfl⟩

theorem buildFrom_defaults :
    ∀ (count i a b c : Nat), i + count ≤ a → i + count ≤ b → i + count ≤ c →
      buildFrom (.str "Unknown") (.arr (List.replicate a (.obj [])))
        (.arr (List.replicate b (.obj []))) (.arr (List.replicate c (.obj []))) i count =
        .ok (List.replicate count defaultRecord) := by
  intro count
  induction count with
  | zero => intro i a b c _ _ _; simp [buildFrom]
  | succ n ih =>
    intro i a b c ha hb hc
    have hia : i < a := by omega
    have hib : i < b := by omega
    have hic : i < c := by omega
    have hrec : buildRecord (.str "Unknown") (.arr (List.replicate a (.obj [])))
        (.arr (List.replicate b (.obj []))) (.arr (List.replicate c (.obj []))) i =
        .ok defaultRecord := by
      simp [buildRecord, pyIndexGetD, List.getElem?_replicate, hia, hib, hic, pyGetD, pyInt,
        defaultRecord, List.lookup]
    simp only [buildFrom, hrec, ih (i + 1) a b c (by omega) (by omega) (by omega)]
    simp [List.replicate_succ]

/-- Claim C1 (amended): every scalar field of an emitted record is decoded
independently with a per-field default for a missing source value: for any
series lengths, a location entry without locationName and with day entries
lacking dataDate, temperature and weather yields records whose name is
Unknown, whose date and condition are the sentinel N/A, and whose two
temperatures are 0 — and those records are emitted, not dropped. (A
present but non-numeric temperature instead raises, see the
counterexample.) -/
theorem claim_C1_amended : ∀ (a b c : Nat),
    process_loc (daysLoc a b c) = .ok (List.replicate (min a (min b c)) defaultRecord) := by
  intro a b c
  have hs : seriesOf (daysLoc a b c) =
      .ok (.str "Unknown", .arr (List.replicate a (.obj [])),
        .arr (List.replicate b (.obj [])), .arr (List.replicate c (.obj []))) := by
    rfl
  simp only [process_loc, hs, pyLen, List.length_replicate]
  exact buildFrom_defaults (min a (min b c)) 0 a b c (by omega) (by omega) (by omega)

/-- Claim C1 (counterexample): in the source, a present but non-numeric
temperature value is passed to int(), which raises; the record is not
emitted with a 0 in that field, instead the whole extraction aborts. -/
theorem claim_C1_counterexample :
    pyGetD (.obj [("dataDate", .str "2026-10-12"), ("temperature", .str "abc")])
      "temperature" (.num 0) = .ok (.str "abc") ∧
    pyInt (.str "abc") = .error () ∧
    extract_records badTempDoc = .error () := by
  refine ⟨by rfl, by rfl, ?_⟩
  have h : find_key badTempDoc "location" = some (.arr [badTempLoc]) := by
    simp [badTempDoc, find_key, List.lookup]
  simp only [extract_records, h]
  rfl

/-- Claim C2 (amended): extract_records returns an empty sequence whenever
the location key is absent from the whole document. (It can also return an
empty sequence when the key is present, and it can raise on malformed
sub-fields; see the counterexample.) -/
theorem claim_C2_amended : ∀ (data : JSON),
    find_key data "location" = none → extract_records data = .ok [] := by
  intro data h
  simp [extract_records, h]

/-- Claim C2 (counterexample): a document whose location list contains a
non-mapping entry makes extract_records raise, and a document whose
location key is present (bound to a list of one empty mapping) still
yields an empty record sequence, so emptiness does not imply absence. -/
theorem claim_C2_counterexample :
    extract_records (.obj [("location", .arr [.num 5])]) = .error () ∧
    find_key (.obj [("location", .arr [.obj []])]) "location" = some (.arr [.obj []]) ∧
    extract_records (.obj [("location", .arr [.obj []])]) = .ok [] := by
  refine ⟨?_, by simp [find_key, List.lookup], ?_⟩
  · have h : find_key (.obj [("location", .arr [.num 5])]) "location" = some (.arr [.num 5]) := by
      simp [find_key, List.lookup]
    simp only [extract_records, h]
    rfl
  · have h : find_key (.obj [("location", .arr [.obj []])]) "location" = some (.arr [.obj []]) := by
      simp [find_key, List.lookup]
    simp only [extract_records, h]
    rfl

theorem claim_C2_witness :
    find_key (.obj [("elementName", .num 1)]) "location" = none ∧
    extract_records (.obj [("elementName", .num 1)]) = .ok [] := by
  have h : find_key (.obj [("elementName", .num 1)]) "location" = none := by
    simp [find_key, find_key_vals, List.lookup]
  exact ⟨h, claim_C2_amended _ h⟩

/-- Claim C5: get_temp_color is total on integers and partitions them with
exact-inclusive boundaries: at least 30 gives the hot colour, at most 20
the cold colour, and strictly between 20 and 30 the mild colour; the three
colours are pairwise distinct. -/
theorem claim_C5 : ∀ t : Int,
    (30 ≤ t → get_temp_color t = hotColor) ∧
    (t ≤ 20 → get_temp_color t = coldColor) ∧
    (20 < t → t < 30 → get_temp_color t = mildColor) ∧
    hotColor ≠ coldColor ∧ hotColor ≠ mildColor ∧ coldColor ≠ mildColor := by
  intro t
  refine ⟨?_, ?_, ?_, by decide, by decide, by decide⟩
  · intro h; rw [get_temp_color, if_pos (by omega : t ≥ 30)]
  · intro h; rw [get_temp_color, if_neg (by omega : ¬ t ≥ 30), if_pos h]
  · intro h1 h2; rw [get_temp_color, if_neg (by omega : ¬ t ≥ 30), if_neg (by omega : ¬ t ≤ 20)]

theorem claim_C5_witness :
    get_temp_color 30 = hotColor ∧ get_temp_color 20 = coldColor ∧ get_temp_color 25 = mildColor :=
  ⟨(claim_C5 30).1 (by decide), (claim_C5 20).2.1 (by decide),
    (claim_C5 25).2.2.1 (by decide) (by decide)⟩

/-- Claim C8: a refresh cycle whose fetch collaborator signals a transport
or parse failure is caught: the cycle returns an empty record list, the
store is unchanged (nothing is persisted), and the failure is reported. -/
theorem claim_C8 : ∀ (store : List Record),
    fetch_and_save_weather (.error ()) store = ([], store, true) := by
  intro store
  rfl

/-- Claim C7: get_weather_icon removes spaces from the condition text and
tests the substring markers in a fixed priority order with the first match
winning — thunder, then rain, then snow, then clear with cloud or
overcast, then clear alone, then overcast alone, then cloud alone, and
otherwise the generic thermometer symbol; the input 雷雨 yields the storm
symbol, and every non-string input yields the question-mark symbol rather
than raising. -/
theorem claim_C7 : (∀ s : String,
    ((stripSpaces s).contains '雷' = true → get_weather_icon (.str s) = "⛈️") ∧
    ((stripSpaces s).contains '雷' = false → (stripSpaces s).contains '雨' = true →
      get_weather_icon (.str s) = "🌧️") ∧
    ((stripSpaces s).contains '雷' = false → (stripSpaces s).contains '雨' = false →
      (stripSpaces s).contains '雪' = true → get_weather_icon (.str s) = "❄️") ∧
    ((stripSpaces s).contains '雷' = false → (stripSpaces s).contains '雨' = false →
      (stripSpaces s).contains '雪' = false → (stripSpaces s).contains '晴' = true →
      ((stripSpaces s).contains '雲' = true ∨ (stripSpaces s).contains '陰' = true) →
      get_weather_icon (.str s) = "⛅") ∧
    ((stripSpaces s).contains '雷' = false → (stripSpaces s).contains '雨' = false →
      (stripSpaces s).contains '雪' = false → (stripSpaces s).contains '晴' = true →
      (stripSpaces s).contains '雲' = false → (stripSpaces s).contains '陰' = false →
      get_weather_icon (.str s) = "☀️") ∧
    ((stripSpaces s).contains '雷' = false → (stripSpaces s).contains '雨' = false →
      (stripSpaces s).contains '雪' = false → (stripSpaces s).contains '晴' = false →
      (stripSpaces s).contains '陰' = true → get_weather_icon (.str s) = "☁️") ∧
    ((stripSpaces s).contains '雷' = false → (stripSpaces s).contains '雨' = false →
      (stripSpaces s).contains '雪' = false → (stripSpaces s).contains '晴' = false →
      (stripSpaces s).contains '陰' = false → (stripSpaces s).contains '雲' = true →
      get_weather_icon (.str s) = "🌥️") ∧
    ((stripSpaces s).contains '雷' = false → (stripSpaces s).contains '雨' = false →
      (stripSpaces s).contains '雪' = false → (stripSpaces s).contains '晴' = false →
      (stripSpaces s).contains '陰' = false → (stripSpaces s).contains '雲' = false →
      get_weather_icon (.str s) = "🌡️")) ∧
    get_weather_icon (.str "雷雨") = "⛈️" ∧
    (∀ d : JSON, (∀ t, d ≠ .str t) → get_weather_icon d = "❓") := by
  refine ⟨?_, by decide, ?_⟩
  · intro s
    refine ⟨?_, ?_, ?_, ?_, ?_, ?_, ?_, ?_⟩
    · intro h1; simp at h1; simp [get_weather_icon, h1]
    · intro h1 h2; simp at h1 h2; simp [get_weather_icon, h1, h2]
    · intro h1 h2 h3; simp at h1 h2 h3; simp [get_weather_icon, h1, h2, h3]
    · intro h1 h2 h3 h4 h5
      simp at h1 h2 h3 h4
      rcases h5 with h5 | h5 <;> simp at h5 <;> simp [get_weather_icon, h1, h2, h3, h4, h5]
    · intro h1 h2 h3 h4 h5 h6
      simp at h1 h2 h3 h4 h5 h6
      simp [get_weather_icon, h1, h2, h3, h4, h5, h6]
    · intro h1 h2 h3 h4 h5
      simp at h1 h2 h3 h4 h5
      simp [get_weather_icon, h1, h2, h3, h4, h5]
    · intro h1 h2 h3 h4 h5 h6
      simp at h1 h2 h3 h4 h5 h6
      simp [get_weather_icon, h1, h2, h3, h4, h5, h6]
    · intro h1 h2 h3 h4 h5 h6
      simp at h1 h2 h3 h4 h5 h6
      simp [get_weather_icon, h1, h2, h3, h4, h5, h6]
  · intro d hd
    cases d with
    | str t => exact absurd rfl (hd t)
    | null => rfl
    | bool b => rfl
    | num n => rfl
    | arr l => rfl
    | obj kvs => rfl

theorem claim_C7_witness :
    get_weather_icon (.str "雷雨") = "⛈️" ∧
    get_weather_icon (.str "晴時多雲") = "⛅" ∧
    get_weather_icon (.str "陰 天") = "☁️" ∧
    get_weather_icon .null = "❓" :=
  ⟨(claim_C7.1 "雷雨").1 (by decide),
   (claim_C7.1 "晴時多雲").2.2.2.1 (by decide) (by decide) (by decide) (by decide)
     (Or.inl (by decide)),
   (claim_C7.1 "陰 天").2.2.2.2.2.1 (by decide) (by decide) (by decide) (by decide) (by decide),
   claim_C7.2.2 .null (fun t h => JSON.noConfusion h)⟩

/-- Claim C3 (amended): find_key agrees with the depth-first-search reading
of the specification whenever the first match is usable: if the
specification search finds nothing, find_key returns absent rather than
raising, and if the first depth-first match carries a non-null value,
find_key returns exactly that value. (When the first match carries null,
find_key skips it; see the counterexample.) -/
theorem claim_C3_amended : ∀ (node : JSON) (key : String),
    (spec_first_match node key = none → find_key node key = none) ∧
    (∀ v, spec_first_match node key = some v → v ≠ JSON.null → find_key node key = some v) := by
  refine find_key.induct
    (fun node key => (spec_first_match node key = none → find_key node key = none) ∧
      (∀ v, spec_first_match node key = some v → v ≠ JSON.null → find_key node key = some v))
    (fun kvs key => (spec_first_match_vals kvs key = none → find_key_vals kvs key = none) ∧
      (∀ v, spec_first_match_vals kvs key = some v → v ≠ JSON.null →
        find_key_vals kvs key = some v))
    (fun l key => (spec_first_match_list l key = none → find_key_list l key = none) ∧
      (∀ v, spec_first_match_list l key = some v → v ≠ JSON.null →
        find_key_list l key = some v))
    ?_ ?_ ?_ ?_ ?_ ?_ ?_ ?_ ?_ ?_ ?_
  · intro key l ih
    constructor
    · intro h
      have := ih.1 (by simpa [spec_first_match] using h)
      simpa [find_key] using this
    · intro v hv hne
      have := ih.2 v (by simpa [spec_first_match] using hv) hne
      simpa [find_key] using this
  · intro key kvs hl
    constructor
    · intro h
      simp [find_key, hl]
    · intro v hv hne
      simp only [spec_first_match, hl, Option.some.injEq] at hv
      exact absurd hv.symm hne
  · intro key kvs v hvn hl
    constructor
    · intro h
      simp [spec_first_match, hl] at h
    · intro w hw hnw
      simp only [spec_first_match, hl, Option.some.injEq] at hw
      subst hw
      simp only [find_key, hl]
  · intro key kvs hl ih
    constructor
    · intro h
      simp only [spec_first_match, hl] at h
      simp only [find_key, hl]
      exact ih.1 h
    · intro v hv hne
      simp only [spec_first_match, hl] at hv
      simp only [find_key, hl]
      exact ih.2 v hv hne
  · intro t key ha ho
    cases t with
    | arr l => exact absurd rfl (ha l)
    | obj kvs => exact absurd rfl (ho kvs)
    | null => exact ⟨fun _ => by simp [find_key], fun v hv _ => by simp [spec_first_match] at hv⟩
    | bool b => exact ⟨fun _ => by simp [find_key], fun v hv _ => by simp [spec_first_match] at hv⟩
    | num n => exact ⟨fun _ => by simp [find_key], fun v hv _ => by simp [spec_first_match] at hv⟩
    | str s => exact ⟨fun _ => by simp [find_key], fun v hv _ => by simp [spec_first_match] at hv⟩
  · intro key
    exact ⟨fun _ => by simp [find_key_list],
      fun v hv _ => by simp [spec_first_match_list] at hv⟩
  · intro key x xs v hfk ih
    constructor
    · intro h
      cases hsx : spec_first_match x key with
      | none =>
        have := ih.1 hsx
        rw [hfk] at this
        cases this
      | some w => simp [spec_first_match_list, hsx] at h
    · intro w hw hnw
      simp only [find_key_list, hfk]
      cases hsx : spec_first_match x key with
      | none =>
        have := ih.1 hsx
        rw [hfk] at this
        cases this
      | some u =>
        simp only [spec_first_match_list, hsx, Option.some.injEq] at hw
        subst hw
        by_cases hu : u = JSON.null
        · exact absurd hu hnw
        · have := ih.2 u hsx hu
          rw [hfk] at this
          exact this
  · intro key x xs hfk ih1 ih3
    constructor
    · intro h
      cases hsx : spec_first_match x key with
      | some w => simp [spec_first_match_list, hsx] at h
      | none =>
        simp only [spec_first_match_list, hsx] at h
        simp only [find_key_list, hfk]
        exact ih3.1 h
    · intro w hw hnw
      cases hsx : spec_first_match x key with
      | some u =>
        simp only [spec_first_match_list, hsx, Option.some.injEq] at hw
        subst hw
        by_cases hu : u = JSON.null
        · exact absurd hu hnw
        · have := ih1.2 u hsx hu
          rw [hfk] at this
          cases this
      | none =>
        simp only [spec_first_match_list, hsx] at hw
        simp only [find_key_list, hfk]
        exact ih3.2 w hw hnw
  · intro key
    exact ⟨fun _ => by simp [find_key_vals],
      fun v hv _ => by simp [spec_first_match_vals] at hv⟩
  · intro key k v rest v1 hfk ih
    constructor
    · intro h
      cases hsx : spec_first_match v key with
      | none =>
        have := ih.1 hsx
        rw [hfk] at this
        cases this
      | some w => simp [spec_first_match_vals, hsx] at h
    · intro w hw hnw
      simp only [find_key_vals, hfk]
      cases hsx : spec_first_match v key with
      | none =>
        have := ih.1 hsx
        rw [hfk] at this
        cases this
      | some u =>
        simp only [spec_first_match_vals, hsx, Option.some.injEq] at hw
        subst hw
        by_cases hu : u = JSON.null
        · exact absurd hu hnw
        · have := ih.2 u hsx hu
          rw [hfk] at this
          exact this
  · intro key k v rest hfk ih1 ih2
    constructor
    · intro h
      cases hsx : spec_first_match v key with
      | some w => simp [spec_first_match_vals, hsx] at h
      | none =>
        simp only [spec_first_match_vals, hsx] at h
        simp only [find_key_vals, hfk]
        exact ih2.1 h
    · intro w hw hnw
      cases hsx : spec_first_match v key with
      | some u =>
        simp only [spec_first_match_vals, hsx, Option.some.injEq] at hw
        subst hw
        by_cases hu : u = JSON.null
        · exact absurd hu hnw
        · have := ih1.2 u hsx hu
          rw [hfk] at this
          cases this
      | none =>
        simp only [spec_first_match_vals, hsx] at hw
        simp only [find_key_vals, hfk]
        exact ih2.2 w hw hnw

/-- Claim C3 (counterexample): in a document whose first depth-first match
of the key carries null, find_key does not return the value of the first
matching key encountered: the specification-faithful search reports the
first match (null) while find_key skips it and returns a later value. -/
theorem claim_C3_counterexample :
    spec_first_match (.arr [.obj [("k", .null)], .obj [("k", .num 7)]]) "k" = some JSON.null ∧
    find_key (.arr [.obj [("k", .null)], .obj [("k", .num 7)]]) "k" = some (.num 7) := by
  constructor
  · simp [spec_first_match, spec_first_match_list, List.lookup]
  · simp [find_key, find_key_list, List.lookup]

theorem claim_C3_witness :
    spec_first_match (.obj [("a", .obj [("k", .num 5)])]) "k" = some (.num 5) ∧
    find_key (.obj [("a", .obj [("k", .num 5)])]) "k" = some (.num 5) := by
  have h : spec_first_match (.obj [("a", .obj [("k", .num 5)])]) "k" = some (.num 5) := by
    simp [spec_first_match, spec_first_match_vals, List.lookup]
  exact ⟨h, (claim_C3_amended _ _).2 _ h (by simp)⟩

theorem isNull_iff (v : JSON) : v.isNull = true ↔ v = JSON.null := by
  cases v <;> simp [JSON.isNull]

theorem lookup_null_of_keyAllNullObj :
    ∀ (kvs : List (String × JSON)) (key : String) (v : JSON),
      keyAllNullObj kvs key = true → List.lookup key kvs = some v → v = JSON.null := by
  intro kvs
  induction kvs with
  | nil => intro key v _ hl; simp [List.lookup] at hl
  | cons p rest ih =>
    obtain ⟨k, w⟩ := p
    intro key v hall hl
    simp only [keyAllNullObj, Bool.and_eq_true, Bool.or_eq_true] at hall
    obtain ⟨⟨hA, hB⟩, hC⟩ := hall
    by_cases hk : (key == k) = true
    · simp only [List.lookup, hk, Option.some.injEq] at hl
      subst hl
      have hk2 : key = k := by simpa using hk
      rcases hA with hA | hA
      · exfalso
        subst hk2
        simp at hA
      · exact (isNull_iff w).1 hA
    · simp only [List.lookup] at hl
      rw [Bool.not_eq_true] at hk
      rw [hk] at hl
      exact ih key v hC hl

/-- Claim C10: find_key cannot distinguish a key bound to null from an
absent key — whenever every binding of the key in the document is null it
returns absent — and a null-valued first occurrence reached through
recursion (inside a sequence element, or inside a mapping value) is
skipped, a later non-null occurrence being returned instead. -/
theorem claim_C10 :
    (∀ (node : JSON) (key : String), keyAllNull node key = true → find_key node key = none) ∧
    (∀ (key : String) (v : JSON), v ≠ JSON.null →
      find_key (.arr [.obj [(key, .null)], .obj [(key, v)]]) key = some v) ∧
    (∀ (a b key : String) (v : JSON), v ≠ JSON.null → (key == a) = false → (key == b) = false →
      find_key (.obj [(a, .obj [(key, .null)]), (b, .obj [(key, v)])]) key = some v) := by
  refine ⟨?_, ?_, ?_⟩
  · refine find_key.induct
      (fun node key => keyAllNull node key = true → find_key node key = none)
      (fun kvs key => keyAllNullObj kvs key = true → find_key_vals kvs key = none)
      (fun l key => keyAllNullList l key = true → find_key_list l key = none)
      ?_ ?_ ?_ ?_ ?_ ?_ ?_ ?_ ?_ ?_ ?_
    · intro key l ih h
      simp only [keyAllNull] at h
      simp only [find_key]
      exact ih h
    · intro key kvs hl _
      simp [find_key, hl]
    · intro key kvs v hvn hl h
      simp only [keyAllNull] at h
      exact absurd (lookup_null_of_keyAllNullObj kvs key v h hl) hvn
    · intro key kvs hl ih h
      simp only [keyAllNull] at h
      simp only [find_key, hl]
      exact ih h
    · intro t key ha ho h
      cases t with
      | arr l => exact absurd rfl (ha l)
      | obj kvs => exact absurd rfl (ho kvs)
      | null => simp [find_key]
      | bool b => simp [find_key]
      | num n => simp [find_key]
      | str s => simp [find_key]
    · intro key _
      simp [find_key_list]
    · intro key x xs v hfk ih h
      simp only [keyAllNullList, Bool.and_eq_true] at h
      have := ih h.1
      rw [hfk] at this
      cases this
    · intro key x xs hfk ih1 ih3 h
      simp only [keyAllNullList, Bool.and_eq_true] at h
      simp only [find_key_list, hfk]
      exact ih3 h.2
    · intro key _
      simp [find_key_vals]
    · intro key k v rest v1 hfk ih h
      simp only [keyAllNullObj, Bool.and_eq_true] at h
      have := ih h.1.2
      rw [hfk] at this
      cases this
    · intro key k v rest hfk ih1 ih2 h
      simp only [keyAllNullObj, Bool.and_eq_true] at h
      simp only [find_key_vals, hfk]
      exact ih2 h.2
  · intro key v hv
    have e1 : find_key (.obj [(key, JSON.null)]) key = none := by
      simp [find_key, List.lookup]
    have e2 : find_key (.obj [(key, v)]) key = some v := by
      have hl : List.lookup key [(key, v)] = some v := by simp [List.lookup]
      cases v with
      | null => exact absurd rfl hv
      | bool b => simp [find_key, hl]
      | num n => simp [find_key, hl]
      | str s => simp [find_key, hl]
      | arr l => simp [find_key, hl]
      | obj kvs => simp [find_key, hl]
    simp [find_key, find_key_list, e1, e2]
  · intro a b key v hv ha hb
    have e1 : find_key (.obj [(key, JSON.null)]) key = none := by
      simp [find_key, List.lookup]
    have e2 : find_key (.obj [(key, v)]) key = some v := by
      have hl : List.lookup key [(key, v)] = some v := by simp [List.lookup]
      cases v with
      | null => exact absurd rfl hv
      | bool b2 => simp [find_key, hl]
      | num n => simp [find_key, hl]
      | str s => simp [find_key, hl]
      | arr l => simp [find_key, hl]
      | obj kvs => simp [find_key, hl]
    have hlo : List.lookup key [(a, JSON.obj [(key, JSON.null)]), (b, JSON.obj [(key, v)])] = none := by
      simp [List.lookup, ha, hb]
    simp [find_key, find_key_vals, hlo, e1, e2]

theorem claim_C10_witness :
    find_key (.obj [("k", .null), ("x", .obj [("k", .null)])]) "k" = none ∧
    find_key (.arr [.obj [("k", .null)], .obj [("k", .num 3)]]) "k" = some (.num 3) ∧
    find_key (.obj [("a", .obj [("k", .null)]), ("b", .obj [("k", .num 9)])]) "k" = some (.num 9) :=
  ⟨claim_C10.1 _ "k"
      (by simp [keyAllNull, keyAllNullObj, keyAllNullList, JSON.isNull]),
   claim_C10.2.1 "k" (.num 3) (by simp),
   claim_C10.2.2 "a" "b" "k" (.num 9) (by simp) (by simp) (by simp)⟩

theorem expand_step (recs : List Record) (m : CityMapping) (table2 : List CityMapping) :
    expand_to_localities recs (m :: table2) =
      (match recs.find? (matchesRegion m) with
        | some r => [⟨r, m.city, m.lat, m.lon, get_temp_color r.max_temp⟩]
        | none => []) ++ expand_to_localities recs table2 := by
  simp only [expand_to_localities, List.filterMap_cons]
  cases h : recs.find? (matchesRegion m) <;> simp

theorem expand_cities_sublist (recs : List Record) :
    ∀ (table : List CityMapping),
      ((expand_to_localities recs table).map (fun row => row.display_name)).Sublist
        (table.map (fun m => m.city)) := by
  intro table
  induction table with
  | nil => simp [expand_to_localities]
  | cons m t ih =>
    rw [expand_step recs m t]
    cases h : recs.find? (matchesRegion m) with
    | none => simpa using List.Sublist.cons m.city ih
    | some r => simpa using List.Sublist.cons₂ m.city ih

theorem expand_mem (recs : List Record) :
    ∀ (table : List CityMapping), ∀ row ∈ expand_to_localities recs table, ∃ m ∈ table,
      row.display_name = m.city ∧ row.lat = m.lat ∧ row.lon = m.lon ∧
      recs.find? (matchesRegion m) = some row.base ∧
      row.color = get_temp_color row.base.max_temp := by
  intro table
  induction table with
  | nil => simp [expand_to_localities]
  | cons m t ih =>
    intro row hrow
    rw [expand_step recs m t] at hrow
    rcases List.mem_append.1 hrow with hrow | hrow
    · cases h : recs.find? (matchesRegion m) with
      | none => rw [h] at hrow; cases hrow
      | some r =>
        rw [h] at hrow
        simp only [List.mem_singleton] at hrow
        subst hrow
        exact ⟨m, List.mem_cons_self m t, rfl, rfl, rfl, h, rfl⟩
    · obtain ⟨m2, hm2, hprops⟩ := ih row hrow
      exact ⟨m2, List.mem_cons_of_mem m hm2, hprops⟩

/-- Claim C6: expand_to_localities iterates the locality table in table
order and emits at most one row per entry — the head of the table
contributes exactly one row built from the first matching-region record
(with the city name, coordinates and the colour classification of the
match) when a match exists, and nothing otherwise, with no possibility of
an error. Hence the output length is bounded by the table length, the
emitted city names form an in-order sublist of the table, they are unique
whenever the table names are unique (as in CITY_MAPPING, whose names are
pairwise distinct), and every output row comes from a table entry and the
first record matching its region. -/
theorem claim_C6 : ∀ (recs : List Record) (table : List CityMapping),
    (∀ (m : CityMapping) (table2 : List CityMapping),
      expand_to_localities recs (m :: table2) =
        (match recs.find? (matchesRegion m) with
          | some r => [⟨r, m.city, m.lat, m.lon, get_temp_color r.max_temp⟩]
          | none => []) ++ expand_to_localities recs table2) ∧
    (expand_to_localities recs table).length ≤ table.length ∧
    ((expand_to_localities recs table).map (fun row => row.display_name)).Sublist
      (table.map (fun m => m.city)) ∧
    ((table.map (fun m => m.city)).Nodup →
      ((expand_to_localities recs table).map (fun row => row.display_name)).Nodup) ∧
    (∀ row ∈ expand_to_localities recs table, ∃ m ∈ table,
      row.display_name = m.city ∧ row.lat = m.lat ∧ row.lon = m.lon ∧
      recs.find? (matchesRegion m) = some row.base ∧
      row.color = get_temp_color row.base.max_temp) ∧
    (CITY_MAPPING.map (fun m => m.city)).Nodup := by
  intro recs table
  have hsub := expand_cities_sublist recs table
  have hlen : (expand_to_localities recs table).length ≤ table.length := by
    have := hsub.length_le
    simpa using this
  exact ⟨fun m t2 => expand_step recs m t2, hlen, hsub,
    fun hnd => List.Nodup.sublist hsub hnd, expand_mem recs table, by decide⟩

theorem claim_C6_witness :
    (expand_to_localities
      [⟨.str "南部地區", .str "d", 1, 2, .str "x"⟩, ⟨.str "北部地區", .str "d", 3, 4, .str "y"⟩]
      [⟨"臺北市", "北部地區", 25, 121⟩, ⟨"澎湖縣", "澎湖地區", 23, 119⟩]).length ≤
      ([⟨"臺北市", "北部地區", 25, 121⟩, ⟨"澎湖縣", "澎湖地區", 23, 119⟩] : List CityMapping).length ∧
    ((expand_to_localities
      [⟨.str "南部地區", .str "d", 1, 2, .str "x"⟩, ⟨.str "北部地區", .str "d", 3, 4, .str "y"⟩]
      [⟨"臺北市", "北部地區", 25, 121⟩, ⟨"澎湖縣", "澎湖地區", 23, 119⟩]).map
        (fun row => row.display_name)).Nodup :=
  ⟨(claim_C6 _ _).2.1, (claim_C6 _ _).2.2.2.1 (by decide)⟩

theorem sqlValEq_iff (a b : JSON) : sqlValEq a b = true ↔
    (a.sqlClass = 1 ∧ b.sqlClass = 1 ∧ a.sqlNum = b.sqlNum) ∨
    (a.sqlClass = 2 ∧ b.sqlClass = 2 ∧ a.sqlStr = b.sqlStr) := by
  cases a <;> cases b <;>
    simp [sqlValEq, JSON.sqlClass, JSON.sqlNum, JSON.sqlStr]

theorem sqlValEq_symm (a b : JSON) (h : sqlValEq a b = true) : sqlValEq b a = true := by
  rw [sqlValEq_iff] at h ⊢
  rcases h with ⟨h1, h2, h3⟩ | ⟨h1, h2, h3⟩
  · exact Or.inl ⟨h2, h1, h3.symm⟩
  · exact Or.inr ⟨h2, h1, h3.symm⟩

theorem sqlValEq_trans (a b c : JSON) (hab : sqlValEq a b = true) (hbc : sqlValEq b c = true) :
    sqlValEq a c = true := by
  rw [sqlValEq_iff] at hab hbc ⊢
  rcases hab with ⟨h1, h2, h3⟩ | ⟨h1, h2, h3⟩ <;>
    rcases hbc with ⟨g1, g2, g3⟩ | ⟨g1, g2, g3⟩
  · exact Or.inl ⟨h1, g2, h3.trans g3⟩
  · omega
  · omega
  · exact Or.inr ⟨h1, g2, h3.trans g3⟩

theorem rowConflict_symm (a b : Record) (h : rowConflict a b = true) : rowConflict b a = true := by
  simp only [rowConflict, Bool.and_eq_true] at h ⊢
  exact ⟨sqlValEq_symm _ _ h.1, sqlValEq_symm _ _ h.2⟩

theorem rowConflict_trans (a b c : Record) (hab : rowConflict a b = true)
    (hbc : rowConflict b c = true) : rowConflict a c = true := by
  simp only [rowConflict, Bool.and_eq_true] at hab hbc ⊢
  exact ⟨sqlValEq_trans _ _ _ hab.1 hbc.1, sqlValEq_trans _ _ _ hab.2 hbc.2⟩

theorem rowConflict_comm (a b : Record) : rowConflict a b = rowConflict b a := by
  by_cases h : rowConflict a b = true
  · rw [h, rowConflict_symm a b h]
  · have h2 : ¬ rowConflict b a = true := fun hh => h (rowConflict_symm b a hh)
    rw [Bool.not_eq_true] at h h2
    rw [h, h2]

theorem rowConflict_refl (r : Record) (h1 : ∃ s, r.location = JSON.str s)
    (h2 : ∃ t, r.forecast_date = JSON.str t) : rowConflict r r = true := by
  obtain ⟨s, hs⟩ := h1
  obtain ⟨t, ht⟩ := h2
  simp only [rowConflict, Bool.and_eq_true]
  constructor <;> rw [sqlValEq_iff] <;> right
  · exact ⟨by simp [hs, JSON.sqlClass], by simp [hs, JSON.sqlClass], rfl⟩
  · exact ⟨by simp [ht, JSON.sqlClass], by simp [ht, JSON.sqlClass], rfl⟩

theorem mem_insertReplace (store : List Record) (r row : Record) :
    row ∈ insertReplace store r ↔ (row ∈ store ∧ rowConflict row r = false) ∨ row = r := by
  simp [insertReplace, List.mem_append, List.mem_filter]

theorem save_to_db_nil (store : List Record) : save_to_db store [] = store := rfl

theorem save_to_db_cons (store : List Record) (r : Record) (rest : List Record) :
    save_to_db store (r :: rest) = save_to_db (insertReplace store r) rest := rfl

theorem save_mem : ∀ (input store : List Record), ∀ row ∈ save_to_db store input,
    row ∈ store ∨ row ∈ input := by
  intro input
  induction input with
  | nil => intro store row h; exact Or.inl h
  | cons r rest ih =>
    intro store row h
    rw [save_to_db_cons] at h
    rcases ih (insertReplace store r) row h with h2 | h2
    · rcases (mem_insertReplace store r row).1 h2 with ⟨hm, _⟩ | hm
      · exact Or.inl hm
      · exact Or.inr (by simp [hm])
    · exact Or.inr (List.mem_cons_of_mem r h2)

theorem insertReplace_pairwise (store : List Record) (r : Record)
    (h : store.Pairwise (fun a b => rowConflict a b = false)) :
    (insertReplace store r).Pairwise (fun a b => rowConflict a b = false) := by
  unfold insertReplace
  rw [List.pairwise_append]
  refine ⟨h.filter _, List.pairwise_singleton _ _, ?_⟩
  intro a ha b hb
  simp only [List.mem_singleton] at hb
  subst hb
  have := (List.mem_filter.1 ha).2
  simpa using this

theorem save_pairwise : ∀ (input store : List Record),
    store.Pairwise (fun a b => rowConflict a b = false) →
    (save_to_db store input).Pairwise (fun a b => rowConflict a b = false) := by
  intro input
  induction input with
  | nil => intro store h; exact h
  | cons r rest ih =>
    intro store h
    rw [save_to_db_cons]
    exact ih _ (insertReplace_pairwise store r h)

theorem save_key_preserved : ∀ (input store : List Record) (r row0 : Record),
    row0 ∈ store → rowConflict r row0 = true →
    ∃ row ∈ save_to_db store input, rowConflict r row = true := by
  intro input
  induction input with
  | nil => intro store r row0 hm hc; exact ⟨row0, hm, hc⟩
  | cons q rest ih =>
    intro store r row0 hm hc
    rw [save_to_db_cons]
    by_cases hq : rowConflict row0 q = true
    · exact ih _ r q ((mem_insertReplace store q q).2 (Or.inr rfl)) (rowConflict_trans r row0 q hc hq)
    · exact ih _ r row0 ((mem_insertReplace store q row0).2 (Or.inl ⟨hm, by simpa using hq⟩)) hc

theorem save_covers : ∀ (input store : List Record), ∀ r ∈ input, rowConflict r r = true →
    ∃ row ∈ save_to_db store input, rowConflict r row = true := by
  intro input
  induction input with
  | nil => intro store r hr; cases hr
  | cons q rest ih =>
    intro store r hr hrefl
    rw [save_to_db_cons]
    rcases List.mem_cons.1 hr with hr | hr
    · subst hr
      exact save_key_preserved rest _ r r ((mem_insertReplace store r r).2 (Or.inr rfl)) hrefl
    · exact ih _ r hr hrefl

theorem save_last : ∀ (input store : List Record),
    (∀ x ∈ input, rowConflict x x = true) →
    ∀ row ∈ save_to_db store input,
      ((input.filter (fun q => rowConflict q row)).getLast? = some row) ∨
      ((input.filter (fun q => rowConflict q row)) = [] ∧ row ∈ store) := by
  intro input
  induction input with
  | nil =>
    intro store _ row h
    exact Or.inr ⟨rfl, h⟩
  | cons q rest ih =>
    intro store hrefl row h
    rw [save_to_db_cons] at h
    rcases ih (insertReplace store q) (fun x hx => hrefl x (List.mem_cons_of_mem q hx)) row h with
      hl | ⟨hf, hm⟩
    · left
      cases hq : rowConflict q row with
      | false => simpa [List.filter_cons, hq] using hl
      | true =>
        have hne : rest.filter (fun x => rowConflict x row) ≠ [] := by
          intro hemp
          rw [hemp] at hl
          cases hl
        rw [List.filter_cons]
        simp only [hq, if_pos]
        rw [show q :: rest.filter (fun x => rowConflict x row) =
          [q] ++ rest.filter (fun x => rowConflict x row) from rfl]
        rw [List.getLast?_append, hl]
        rfl
    · rcases (mem_insertReplace store q row).1 hm with ⟨hms, hcf⟩ | heq
      · right
        have hqf : rowConflict q row = false := by
          rw [rowConflict_comm]
          exact hcf
        refine ⟨?_, hms⟩
        simp [List.filter_cons, hqf, hf]
      · subst heq
        left
        have hq : rowConflict row row = true := hrefl row (List.mem_cons_self row rest)
        simp [List.filter_cons, hq, hf]

theorem jsonLe_iff (a b : JSON) : jsonLe a b = true ↔
    a.sqlClass < b.sqlClass ∨ (a.sqlClass = b.sqlClass ∧
      (a.sqlClass = 1 → a.sqlNum ≤ b.sqlNum) ∧ (a.sqlClass = 2 → a.sqlStr ≤ b.sqlStr)) := by
  unfold jsonLe
  split_ifs with h1 h2 h3 h4
  · simp [h1]
  · constructor
    · intro h; simp at h
    · rintro (h | ⟨he, _, _⟩) <;> omega
  · have h3s : a.sqlClass = 1 := by simpa using h3
    have he : a.sqlClass = b.sqlClass := by omega
    constructor
    · intro h
      exact Or.inr ⟨he, fun _ => by simpa using h, fun hc => by omega⟩
    · rintro (h | ⟨_, hnum, _⟩)
      · omega
      · simpa using hnum h3s
  · have h4s : a.sqlClass = 2 := by simpa using h4
    have he : a.sqlClass = b.sqlClass := by omega
    constructor
    · intro h
      exact Or.inr ⟨he, fun hc => by omega, fun _ => by simpa using h⟩
    · rintro (h | ⟨_, _, hstr⟩)
      · omega
      · simpa using hstr h4s
  · have h3s : ¬ a.sqlClass = 1 := by simpa using h3
    have h4s : ¬ a.sqlClass = 2 := by simpa using h4
    have he : a.sqlClass = b.sqlClass := by omega
    simp only [true_iff]
    exact Or.inr ⟨he, fun hc => absurd hc h3s, fun hc => absurd hc h4s⟩

theorem jsonLe_total (a b : JSON) : (jsonLe a b || jsonLe b a) = true := by
  rcases Nat.lt_trichotomy a.sqlClass b.sqlClass with h | h | h
  · have hx : jsonLe a b = true := (jsonLe_iff a b).2 (Or.inl h)
    simp [hx]
  · by_cases hc1 : a.sqlClass = 1
    · rcases le_total a.sqlNum b.sqlNum with hn | hn
      · have hx : jsonLe a b = true :=
          (jsonLe_iff a b).2 (Or.inr ⟨h, fun _ => hn, fun hc => by omega⟩)
        simp [hx]
      · have hx : jsonLe b a = true :=
          (jsonLe_iff b a).2 (Or.inr ⟨h.symm, fun _ => hn, fun hc => by omega⟩)
        simp [hx]
    · by_cases hc2 : a.sqlClass = 2
      · rcases le_total a.sqlStr b.sqlStr with hs | hs
        · have hx : jsonLe a b = true :=
            (jsonLe_iff a b).2 (Or.inr ⟨h, fun hc => by omega, fun _ => hs⟩)
          simp [hx]
        · have hx : jsonLe b a = true :=
            (jsonLe_iff b a).2 (Or.inr ⟨h.symm, fun hc => by omega, fun _ => hs⟩)
          simp [hx]
      · have hx : jsonLe a b = true :=
          (jsonLe_iff a b).2 (Or.inr ⟨h, fun hc => absurd hc hc1, fun hc => absurd hc hc2⟩)
        simp [hx]
  · have hx : jsonLe b a = true := (jsonLe_iff b a).2 (Or.inl h)
    simp [hx]

theorem jsonLe_trans (a b c : JSON) (hab : jsonLe a b = true) (hbc : jsonLe b c = true) :
    jsonLe a c = true := by
  rw [jsonLe_iff] at hab hbc ⊢
  rcases hab with h | ⟨he1, hn1, hs1⟩
  · rcases hbc with h2 | ⟨he2, _, _⟩
    · exact Or.inl (h.trans h2)
    · exact Or.inl (by omega)
  · rcases hbc with h2 | ⟨he2, hn2, hs2⟩
    · exact Or.inl (by omega)
    · refine Or.inr ⟨by omega, fun hc => ?_, fun hc => ?_⟩
      · exact le_trans (hn1 hc) (hn2 (by omega))
      · exact le_trans (hs1 hc) (hs2 (by omega))

theorem lexCombine_total {α : Type} (le1 le2 : α → α → Bool)
    (h1tot : ∀ x y, (le1 x y || le1 y x) = true)
    (h2tot : ∀ x y, (le2 x y || le2 y x) = true)
    (a b : α) : (lexCombine le1 le2 a b || lexCombine le1 le2 b a) = true := by
  unfold lexCombine
  by_cases hab : le1 a b = true <;> by_cases hba : le1 b a = true
  · simpa [hab, hba] using h2tot a b
  · simp [hab, hba]
  · simp [hab, hba]
  · rw [Bool.not_eq_true] at hab hba
    have := h1tot a b
    rw [hab, hba] at this
    simp at this

theorem lexCombine_trans {α : Type} (le1 le2 : α → α → Bool)
    (h1t : ∀ x y z, le1 x y = true → le1 y z = true → le1 x z = true)
    (h2t : ∀ x y z, le2 x y = true → le2 y z = true → le2 x z = true)
    (a b c : α) (hab : lexCombine le1 le2 a b = true) (hbc : lexCombine le1 le2 b c = true) :
    lexCombine le1 le2 a c = true := by
  unfold lexCombine at hab hbc ⊢
  have hab1 : le1 a b = true := by
    by_cases h : (le1 a b && le1 b a) = true
    · rw [Bool.and_eq_true] at h
      exact h.1
    · rw [if_neg h] at hab; exact hab
  have hbc1 : le1 b c = true := by
    by_cases h : (le1 b c && le1 c b) = true
    · rw [Bool.and_eq_true] at h
      exact h.1
    · rw [if_neg h] at hbc; exact hbc
  have hac1 : le1 a c = true := h1t a b c hab1 hbc1
  by_cases hca : le1 c a = true
  · have hba : le1 b a = true := h1t b c a hbc1 hca
    have hcb : le1 c b = true := h1t c a b hca hab1
    rw [if_pos (by simp [hab1, hba])] at hab
    rw [if_pos (by simp [hbc1, hcb])] at hbc
    rw [if_pos (by simp [hac1, hca])]
    exact h2t a b c hab hbc
  · rw [Bool.not_eq_true] at hca
    rw [if_neg (by simp [hac1, hca])]
    exact hac1

theorem rowLe_trans (a b c : Record) (hab : rowLe a b = true) (hbc : rowLe b c = true) :
    rowLe a c = true :=
  lexCombine_trans _ _ (fun x y z => jsonLe_trans x.location y.location z.location)
    (fun x y z => jsonLe_trans x.forecast_date y.forecast_date z.forecast_date) a b c hab hbc

theorem rowLe_total (a b : Record) : (rowLe a b || rowLe b a) = true :=
  lexCombine_total _ _ (fun x y => jsonLe_total x.location y.location)
    (fun x y => jsonLe_total x.forecast_date y.forecast_date) a b

/-- Claim C9: persisting any well-typed forecast-record sequence into an
empty store and reading it back yields rows drawn from the input (up to
the unmodelled storage-assigned id and timestamp), with every persisted
(region, date) key represented by exactly one row — pairwise key
conflicts are absent — that row being the last input row with that key
(the later write replaces the earlier on conflict), and the read-back
ordered by location and then forecast date. -/
theorem claim_C9 : ∀ (input : List Record),
    (∀ r ∈ input, (∃ s, r.location = JSON.str s) ∧ (∃ t, r.forecast_date = JSON.str t)) →
    (∀ row ∈ round_trip input, row ∈ input) ∧
    (∀ r ∈ input, ∃ row ∈ round_trip input, rowConflict r row = true) ∧
    ((round_trip input).Pairwise (fun a b => rowConflict a b = false)) ∧
    (∀ row ∈ round_trip input,
      (input.filter (fun q => rowConflict q row)).getLast? = some row) ∧
    ((round_trip input).Pairwise (fun a b => rowLe a b = true)) := by
  intro input hstr
  have hrefl : ∀ x ∈ input, rowConflict x x = true := fun x hx =>
    rowConflict_refl x (hstr x hx).1 (hstr x hx).2
  have hperm : (round_trip input).Perm (save_to_db [] input) := by
    unfold round_trip get_db_data
    exact List.mergeSort_perm _ _
  have hmem : ∀ row : Record, row ∈ round_trip input ↔ row ∈ save_to_db [] input :=
    fun row => hperm.mem_iff
  have hsym : ∀ {x y : Record}, rowConflict x y = false → rowConflict y x = false := by
    intro x y h
    rw [rowConflict_comm]
    exact h
  refine ⟨?_, ?_, ?_, ?_, ?_⟩
  · intro row hr
    rcases save_mem input [] row ((hmem row).1 hr) with h | h
    · cases h
    · exact h
  · intro r hr
    obtain ⟨row, hrow, hc⟩ := save_covers input [] r hr (hrefl r hr)
    exact ⟨row, (hmem row).2 hrow, hc⟩
  · exact (hperm.pairwise_iff hsym).2 (save_pairwise input [] List.Pairwise.nil)
  · intro row hr
    rcases save_last input [] hrefl row ((hmem row).1 hr) with h | ⟨_, h⟩
    · exact h
    · cases h
  · unfold round_trip get_db_data
    exact List.sorted_mergeSort (fun x y z => rowLe_trans x y z)
      (fun x y => rowLe_total x y) (save_to_db [] input)

theorem claim_C9_witness :
    (∀ row ∈ round_trip sampleRows, row ∈ sampleRows) ∧
    (∀ r ∈ sampleRows, ∃ row ∈ round_trip sampleRows, rowConflict r row = true) ∧
    ((round_trip sampleRows).Pairwise (fun a b => rowConflict a b = false)) ∧
    (∀ row ∈ round_trip sampleRows,
      (sampleRows.filter (fun q => rowConflict q row)).getLast? = some row) ∧
    ((round_trip sampleRows).Pairwise (fun a b => rowLe a b = true)) :=
  claim_C9 sampleRows (by
    intro r hr
    simp only [sampleRows, List.mem_cons, List.not_mem_nil, or_false] at hr
    rcases hr with h | h | h <;> subst h <;> exact ⟨⟨_, rfl⟩, ⟨_, rfl⟩⟩)
